import Mathlib

/-!
Verification of the VollenBot RAG context-assembly core.

This file gives a shallow embedding of the token-budget and context-selection
functions of the repository:
 - `estimateTokens`, `truncateToTokens` (identical in
   `src/app/api/chat/route.ts` and `src/app/components/Chatbot.tsx`),
 - the two `trimHistory` variants (`Route.trimHistory` from `route.ts`,
   `Chatbot.trimHistory` from `Chatbot.tsx`),
 - `Chatbot.buildContextualQuery`, `Chatbot.findMostRelevantSource`,
 - `buildContextWithTokenManagement` (identical in both files),
 - the post-retrieval branch of the `POST` orchestrator.

JavaScript strings are modelled as `List Char` (all texts involved are in the
Basic Multilingual Plane, where JS UTF-16 code-unit counts agree with code
point counts).  JS numbers holding integer token counts are modelled as
`Nat`/`Int`.  The floating-point threshold comparisons of the source
(`maxChars * 0.7`, `maxChars * 0.8`, `availableTokens * 0.95`,
`MAX_HISTORY_TOKENS * 0.9`, `maxTokens / 0.25`, `length * 0.25`) are modelled
as exact rational comparisons; at the integer magnitudes involved the IEEE-754
double results of the source round to exactly these values, so the branch
decisions agree.
-/

/-- `role: 'user' | 'assistant'` of a conversation turn. -/
inductive Role where
  | user : Role
  | assistant : Role
deriving DecidableEq, Repr

/-- A conversation turn `{ role, content }`. -/
structure ChatTurn where
  role : Role
  content : List Char
deriving DecidableEq, Repr

/-- A retrieval match row as used by the source (`content`, `source_url`,
`title`, `similarity`).  Cosine similarities are modelled as rationals. -/
structure RetrievalMatch where
  content : List Char
  source_url : List Char
  title : Option (List Char)
  similarity : ℚ
deriving DecidableEq, Repr

/-- The `Source` interface `{ url, title, content }`. -/
structure Source where
  url : List Char
  title : Option (List Char)
  content : List Char
deriving DecidableEq, Repr

/-- `estimateTokens`: `Math.ceil(text.length * TOKENS_PER_CHAR)` with
`TOKENS_PER_CHAR = 0.25`, i.e. `ceil(length / 4) = (length + 3) / 4`. -/
def estimateTokens (text : List Char) : Nat :=
  (text.length + 3) / 4

/-- Helper for `jsLastIndexOf`: walk the list keeping the index of the last
occurrence seen so far (`acc` starts at `-1`). -/
def lastIndexOfAux (c : Char) : List Char → Nat → Int → Int
  | [], _, acc => acc
  | x :: xs, i, acc => lastIndexOfAux c xs (i + 1) (if x = c then (i : Int) else acc)

/-- JavaScript `String.prototype.lastIndexOf` for a single character:
the greatest index holding `c`, and `-1` when `c` does not occur. -/
def jsLastIndexOf (l : List Char) (c : Char) : Int :=
  lastIndexOfAux c l 0 (-1)

/-- The three-character ellipsis marker `'...'` appended by the truncator. -/
def ellipsisMarker : List Char :=
  ['.', '.', '.']

/-- `truncateToTokens(text, maxTokens)` from `route.ts` lines 131-158 and
`Chatbot.tsx` lines 1294-1321.  `maxChars = Math.floor(maxTokens / 0.25)`
is exactly `4 * maxTokens`; the threshold tests `lastSentenceEnd > maxChars
* 0.7` and `lastSpace > maxChars * 0.8` are modelled as the exact rational
comparisons `10 * lastSentenceEnd > 7 * maxChars` and
`10 * lastSpace > 8 * maxChars`. -/
def truncateToTokens (text : List Char) (maxTokens : Nat) : List Char :=
  let maxChars := 4 * maxTokens
  if text.length ≤ maxChars then
    text
  else
    let truncated := text.take maxChars
    let lastPeriod := jsLastIndexOf truncated '.'
    let lastExclamation := jsLastIndexOf truncated '!'
    let lastQuestion := jsLastIndexOf truncated '?'
    let lastSentenceEnd := max (max lastPeriod lastExclamation) lastQuestion
    if 7 * (maxChars : Int) < 10 * lastSentenceEnd then
      text.take (lastSentenceEnd.toNat + 1)
    else
      let lastSpace := jsLastIndexOf truncated ' '
      if 8 * (maxChars : Int) < 10 * lastSpace then
        text.take lastSpace.toNat ++ ellipsisMarker
      else
        truncated ++ ellipsisMarker

namespace Route

/-- `MAX_HISTORY_TOKENS = 1000` in `src/app/api/chat/route.ts`. -/
def MAX_HISTORY_TOKENS : Nat := 1000

/-- `MIN_CHUNK_TOKENS = 50` (same constant in both source files). -/
def MIN_CHUNK_TOKENS : Nat := 50

/-- The `else` branch of the `route.ts` `trimHistory` loop: when the next
(older) message does not fit, optionally truncate it, then stop.  The test
`totalTokens < MAX_HISTORY_TOKENS * 0.9` is exactly `totalTokens < 900`. -/
def breakTruncate (msg : ChatTurn) (totalTokens : Nat) (trimmed : List ChatTurn) :
    List ChatTurn :=
  if totalTokens < 900 then
    if MIN_CHUNK_TOKENS ≤ MAX_HISTORY_TOKENS - totalTokens then
      ⟨msg.role, truncateToTokens msg.content (MAX_HISTORY_TOKENS - totalTokens)⟩ :: trimmed
    else trimmed
  else trimmed

/-- The `route.ts` `trimHistory` loop (lines 171-190), walking the history
newest-to-oldest; the first argument is the reversed history, and `unshift`
is modelled by consing onto `trimmed`. -/
def trimLoop : List ChatTurn → Nat → List ChatTurn → List ChatTurn
  | [], _, trimmed => trimmed
  | msg :: rest, totalTokens, trimmed =>
    if totalTokens + estimateTokens msg.content ≤ MAX_HISTORY_TOKENS then
      trimLoop rest (totalTokens + estimateTokens msg.content) (msg :: trimmed)
    else
      breakTruncate msg totalTokens trimmed

/-- `trimHistory` from `src/app/api/chat/route.ts` lines 164-193. -/
def trimHistory (history : List ChatTurn) : List ChatTurn :=
  trimLoop history.reverse 0 []

end Route

namespace Chatbot

/-- `MAX_HISTORY_TOKENS = 50000` in `src/app/components/Chatbot.tsx`. -/
def MAX_HISTORY_TOKENS : Nat := 50000

/-- `MIN_CHUNK_TOKENS = 50` in `src/app/components/Chatbot.tsx`. -/
def MIN_CHUNK_TOKENS : Nat := 50

/-- The single-message arm of the `else` (break) branch of the `Chatbot.tsx`
`trimHistory` loop (lines 1370-1410, non-pair case).  The test
`totalTokens < MAX_HISTORY_TOKENS * 0.9` is exactly `totalTokens < 45000`. -/
def breakTruncateSingle (msg : ChatTurn) (totalTokens : Nat)
    (trimmed : List ChatTurn) : List ChatTurn :=
  if totalTokens < 45000 then
    if MIN_CHUNK_TOKENS ≤ MAX_HISTORY_TOKENS - totalTokens then
      ⟨msg.role, truncateToTokens msg.content (MAX_HISTORY_TOKENS - totalTokens)⟩ :: trimmed
    else trimmed
  else trimmed

/-- The pair arm of the `else` (break) branch of the `Chatbot.tsx`
`trimHistory` loop (lines 1375-1401): `msg` is the assistant turn at index
`i`, `userMsg` the user turn at index `i - 1`.  Note the source `unshift`s
`userMsg` first and then the (possibly truncated) assistant turn, so the
assistant turn ends up in front of the user turn. -/
def breakTruncatePair (msg userMsg : ChatTurn) (totalTokens : Nat)
    (trimmed : List ChatTurn) : List ChatTurn :=
  if totalTokens < 45000 then
    if MIN_CHUNK_TOKENS ≤ MAX_HISTORY_TOKENS - totalTokens then
      if estimateTokens userMsg.content + estimateTokens msg.content ≤
          MAX_HISTORY_TOKENS - totalTokens then
        msg :: userMsg :: trimmed
      else if estimateTokens userMsg.content + MIN_CHUNK_TOKENS ≤
          MAX_HISTORY_TOKENS - totalTokens then
        ⟨msg.role, truncateToTokens msg.content
            (MAX_HISTORY_TOKENS - totalTokens - estimateTokens userMsg.content)⟩ ::
          userMsg :: trimmed
      else
        ⟨userMsg.role, truncateToTokens userMsg.content (MAX_HISTORY_TOKENS - totalTokens)⟩ ::
          trimmed
    else trimmed
  else trimmed

/-- The `Chatbot.tsx` `trimHistory` loop (lines 1339-1412), walking the
history newest-to-oldest; the first argument is the reversed history.

The source guards every use of its `isPartOfPair` flag with
`msg.role === 'assistant' && i > 0`, which reduces the flag to: `msg` is an
assistant turn whose predecessor (the next element of the reversed list) is
a user turn.  When a pair is consumed the source executes
`trimmed.unshift(history[i - 1]); trimmed.unshift(msg);`, leaving the
assistant turn in front of the user turn, and skips the user turn
(`i--`). -/
def trimLoop : List ChatTurn → Nat → List ChatTurn → List ChatTurn
  | [], _, trimmed => trimmed
  | msg :: [], totalTokens, trimmed =>
    -- index 0: no preceding turn, so no pair; the loop then exits
    if totalTokens + estimateTokens msg.content ≤ MAX_HISTORY_TOKENS then
      msg :: trimmed
    else
      breakTruncateSingle msg totalTokens trimmed
  | msg :: userMsg :: rest, totalTokens, trimmed =>
    if msg.role = Role.assistant ∧ userMsg.role = Role.user then
      -- pairTokens = msgTokens + estimateTokens(history[i - 1].content)
      if totalTokens + (estimateTokens msg.content + estimateTokens userMsg.content) ≤
          MAX_HISTORY_TOKENS then
        trimLoop rest
          (totalTokens + (estimateTokens msg.content + estimateTokens userMsg.content))
          (msg :: userMsg :: trimmed)
      else
        breakTruncatePair msg userMsg totalTokens trimmed
    else
      if totalTokens + estimateTokens msg.content ≤ MAX_HISTORY_TOKENS then
        trimLoop (userMsg :: rest) (totalTokens + estimateTokens msg.content)
          (msg :: trimmed)
      else
        breakTruncateSingle msg totalTokens trimmed

/-- `trimHistory` from `src/app/components/Chatbot.tsx` lines 1329-1415. -/
def trimHistory (history : List ChatTurn) : List ChatTurn :=
  if history.length = 0 then []
  else trimLoop history.reverse 0 []

/-- The character class of the JavaScript regex `\s` (used by
`query.trim().split(/\s+/)`). -/
def isJsWhitespace (c : Char) : Bool :=
  decide (c = ' ' ∨ c = '\t' ∨ c = '\n' ∨ c = '\r' ∨ c.toNat = 0x0b ∨ c.toNat = 0x0c ∨
    c.toNat = 0xa0 ∨ c.toNat = 0x1680 ∨ (0x2000 ≤ c.toNat ∧ c.toNat ≤ 0x200a) ∨
    c.toNat = 0x2028 ∨ c.toNat = 0x2029 ∨ c.toNat = 0x202f ∨ c.toNat = 0x205f ∨
    c.toNat = 0x3000 ∨ c.toNat = 0xfeff)

/-- Number of maximal non-whitespace runs; this is exactly what
`query.trim().split(/\s+/).filter(w => w.length > 0).length` computes. -/
def countWordsAux : List Char → Bool → Nat
  | [], _ => 0
  | c :: rest, inWord =>
    if isJsWhitespace c then countWordsAux rest false
    else (if inWord then 0 else 1) + countWordsAux rest true

/-- Word count of a query, per the source regex split. -/
def countWords (l : List Char) : Nat :=
  countWordsAux l false

/-- The collection loop of `buildContextualQuery` (lines 1445-1458): iterate
the history from newest to oldest (first argument: reversed history),
`unshift`ing the content of assistant turns shorter than 1000 characters and
user turns shorter than 500 characters. -/
def collectLoop : List ChatTurn → List (List Char) → List (List Char)
  | [], acc => acc
  | msg :: rest, acc =>
    collectLoop rest
      (if msg.role = Role.user ∧ msg.content.length < 500 then
        msg.content ::
          (if msg.role = Role.assistant ∧ msg.content.length < 1000 then
            msg.content :: acc
          else acc)
      else
        (if msg.role = Role.assistant ∧ msg.content.length < 1000 then
          msg.content :: acc
        else acc))

/-- `buildContextualQuery` from `src/app/components/Chatbot.tsx` lines
1425-1470. -/
def buildContextualQuery (query : List Char) (history : List ChatTurn) :
    List Char :=
  if countWords query ≤ 3 ∧ 0 < history.length then
    -- isShortFollowUp: expand with history context
    if 0 < (collectLoop history.reverse []).length then
      query ++ ' ' :: List.intercalate [' '] (collectLoop history.reverse [])
    else query
  else
    -- !isShortFollowUp: return the query as-is
    query

end Chatbot

namespace Chatbot

/-- A `SourceCandidate` of `findMostRelevantSource` (lines 1483-1489). -/
structure SourceCandidate where
  url : List Char
  title : Option (List Char)
  content : List Char
  similarityScore : ℚ
  chunkCount : Nat
deriving DecidableEq, Repr

/-- JavaScript `match.title || null`: an empty string is falsy and maps to
`null`. -/
def jsTitleOrNull (t : Option (List Char)) : Option (List Char) :=
  match t with
  | some s => if s = [] then none else some s
  | none => none

/-- A fresh map entry for a URL not seen before (lines 1501-1508). -/
def freshCandidate (url : List Char) (m : RetrievalMatch) : SourceCandidate :=
  ⟨url, jsTitleOrNull m.title, m.content, m.similarity, 1⟩

/-- Updating an existing map entry (lines 1509-1519): keep the longest
content (and its title), take the max similarity, bump the chunk count. -/
def updateCandidate (c : SourceCandidate) (m : RetrievalMatch) : SourceCandidate :=
  if c.content.length < m.content.length then
    ⟨c.url, jsTitleOrNull m.title, m.content, max c.similarityScore m.similarity,
      c.chunkCount + 1⟩
  else
    ⟨c.url, c.title, c.content, max c.similarityScore m.similarity, c.chunkCount + 1⟩

/-- Insertion into the `Map<string, SourceCandidate>`, preserving first
insertion order (JS `Map` iteration order). -/
def insertIntoSourceMap : List SourceCandidate → RetrievalMatch → List SourceCandidate
  | [], m => [freshCandidate m.source_url m]
  | c :: cs, m =>
    if c.url = m.source_url then updateCandidate c m :: cs
    else c :: insertIntoSourceMap cs m

/-- The grouping loop of `findMostRelevantSource` (lines 1492-1520):
matches with an empty `source_url` are skipped (`if (!url) continue`). -/
def buildSourceMap (ms : List RetrievalMatch) : List SourceCandidate :=
  ms.foldl
    (fun acc m => if m.source_url = [] then acc else insertIntoSourceMap acc m) []

/-- The comparator `sortBySimilarity` (lines 1535-1542): similarity first
when the gap exceeds `0.05`, otherwise chunk count.  A negative result
places `a` before `b`. -/
def candCompare (a b : SourceCandidate) : ℚ :=
  if 1 / 20 < |b.similarityScore - a.similarityScore| then
    b.similarityScore - a.similarityScore
  else
    (b.chunkCount : ℚ) - (a.chunkCount : ℚ)

/-- Stable insertion used to model `Array.prototype.sort` (which is
specified to be stable): `a` goes before the first element `b` with
`candCompare a b ≤ 0`. -/
def insertSortedCand (a : SourceCandidate) : List SourceCandidate → List SourceCandidate
  | [] => [a]
  | b :: rest =>
    if candCompare a b ≤ 0 then a :: b :: rest else b :: insertSortedCand a rest

/-- Stable sort by `candCompare`, modelling `array.sort(sortBySimilarity)`. -/
def sortCandidates : List SourceCandidate → List SourceCandidate
  | [] => []
  | a :: rest => insertSortedCand a (sortCandidates rest)

/-- `findMostRelevantSource` from `src/app/components/Chatbot.tsx` lines
1477-1579: group used matches by URL, split candidates into homepage and
specific partitions, prefer the best specific candidate, then the best
homepage candidate, then fall back to the first match. -/
def findMostRelevantSource (selectedMatches : List RetrievalMatch)
    (homepageUrls : List (List Char)) : Option Source :=
  if selectedMatches.length = 0 then none
  else
    match sortCandidates
        ((buildSourceMap selectedMatches).filter
          (fun c => decide (c.url ∉ homepageUrls))) with
    | best :: _ => some ⟨best.url, best.title, best.content⟩
    | [] =>
      match sortCandidates
          ((buildSourceMap selectedMatches).filter
            (fun c => decide (c.url ∈ homepageUrls))) with
      | best :: _ => some ⟨best.url, best.title, best.content⟩
      | [] =>
        match selectedMatches with
        | first :: _ => some ⟨first.source_url, jsTitleOrNull first.title, first.content⟩
        | [] => none

/-- The hard-coded homepage URL list of the `Chatbot.tsx` `POST` handler
(line 1845). -/
def HOMEPAGE_URLS : List (List Char) :=
  ["https://vollenopplevelser.no".data, "https://vollenopplevelser.no/".data]

end Chatbot

/-- `MAX_CONTEXT_TOKENS = 3000` (same in both source files). -/
def MAX_CONTEXT_TOKENS : Nat := 3000

/-- The literal wrapper text `'Kontekst:\n\nSpørsmål: '` whose estimate is
reserved as `contextPrefixTokens` (21 characters, 6 tokens). -/
def contextWrapperText : List Char :=
  "Kontekst:\n\nSpørsmål: ".data

/-- The chunk-selection loop of `buildContextWithTokenManagement` (lines
221-242 of `route.ts` / 1607-1628 of `Chatbot.tsx`).  `safe` is
`safeAvailableTokens` (an `Int`: it is negative when the reserved tokens
exceed the ceiling) and `used` is `usedTokens`.  A full chunk is taken when
it fits; otherwise, if at least `MIN_CHUNK_TOKENS = 50` tokens remain, one
truncated chunk is taken and the loop stops; otherwise the loop stops. -/
def selectLoop (safe : Int) : List RetrievalMatch → Int → List RetrievalMatch
  | [], _ => []
  | m :: rest, used =>
    if (estimateTokens m.content : Int) ≤ safe - used then
      m :: selectLoop safe rest (used + estimateTokens m.content)
    else if 50 ≤ safe - used then
      [⟨truncateToTokens m.content (safe - used).toNat, m.source_url, m.title,
        m.similarity⟩]
    else []

/-- The assembled context string (lines 245-247): each selected match's
content tagged with a 1-based ordinal marker `[i] `, joined by blank
lines. -/
def contextJoin (selected : List RetrievalMatch) : List Char :=
  List.intercalate ['\n', '\n']
    (selected.enum.map
      (fun p => '[' :: (Nat.repr (p.1 + 1)).data ++ ']' :: ' ' :: p.2.content))

/-- The result record `{ context, selectedMatches, totalTokens }`. -/
structure BuildResult where
  context : List Char
  selectedMatches : List RetrievalMatch
  totalTokens : Nat
deriving DecidableEq, Repr

/-- `buildContextWithTokenManagement` from `route.ts` lines 199-256 and
`Chatbot.tsx` lines 1585-1642 (the two copies are identical).
`Math.floor(availableTokens * 0.95)` is modelled as
`Int.fdiv (19 * availableTokens) 20`, which is what the source's IEEE-754
double computation rounds to at these magnitudes. -/
def buildContextWithTokenManagement (matchList : List RetrievalMatch)
    (systemPrompt userQuery : List Char) (historyTokens : Nat) : BuildResult :=
  let reservedTokens := estimateTokens systemPrompt + estimateTokens userQuery +
    estimateTokens contextWrapperText + historyTokens
  let availableTokens : Int := (MAX_CONTEXT_TOKENS : Int) - reservedTokens
  let safeAvailableTokens : Int := Int.fdiv (19 * availableTokens) 20
  let selected := selectLoop safeAvailableTokens matchList 0
  ⟨contextJoin selected, selected,
    estimateTokens systemPrompt + estimateTokens (contextJoin selected) +
      estimateTokens userQuery + estimateTokens contextWrapperText + historyTokens⟩

/-- The fixed fallback answer of both `POST` handlers (`route.ts` line 328,
`Chatbot.tsx` line 1744). -/
def fallbackAnswer : List Char :=
  "Beklager, jeg fant ingen relevant informasjon i databasen for å svare på spørsmålet ditt.".data

/-- Outcome of the post-retrieval part of the `POST` orchestrator: either an
immediate JSON response carrying the fallback answer and sources, or a
streaming chat-generation call carrying the prepared messages and
sources. -/
inductive PostOutcome where
  | jsonFallback : List Char → List Source → PostOutcome
  | streamGeneration : List Char → List ChatTurn → List Char → List Source → PostOutcome
deriving DecidableEq, Repr

/-- The post-retrieval branch of the `Chatbot.tsx` `POST` handler (lines
1741-1879): with no matches (`!matches || matches.length === 0`) it returns
the fixed fallback JSON with an empty source list and never reaches the
chat-generation call; otherwise it trims the history, assembles the
context, selects the best source and proceeds to streaming generation.  The
system prompt is passed as a parameter (the handler uses a fixed literal
string). -/
def postAfterRetrieval (message : List Char) (history : List ChatTurn)
    (systemPrompt : List Char) (matchList : Option (List RetrievalMatch)) :
    PostOutcome :=
  match matchList with
  | none => PostOutcome.jsonFallback fallbackAnswer []
  | some [] => PostOutcome.jsonFallback fallbackAnswer []
  | some (m :: rest) =>
    let trimmedHistory := Chatbot.trimHistory history
    let historyTokens :=
      trimmedHistory.foldl (fun sum msg => sum + estimateTokens msg.content) 0
    let r := buildContextWithTokenManagement (m :: rest) systemPrompt message historyTokens
    let sources : List Source :=
      match Chatbot.findMostRelevantSource r.selectedMatches Chatbot.HOMEPAGE_URLS with
      | some s => [s]
      | none => []
    PostOutcome.streamGeneration systemPrompt trimmedHistory
      ("Kontekst:\n".data ++ r.context ++ "\n\nSpørsmål: ".data ++ message) sources

namespace Chatbot

/-- The per-turn inclusion test of `buildContextualQuery` as described by
the spec: assistant turns shorter than 1000 characters, user turns shorter
than 500 characters. -/
def keepsTurn (t : ChatTurn) : Bool :=
  match t.role with
  | Role.assistant => t.content.length < 1000
  | Role.user => t.content.length < 500

/-- The combination shape of `buildContextualQuery`: the original query
first, then (when any context was collected) a space and the collected
contents joined by single spaces. -/
def joinQuerySp (q : List Char) (cs : List (List Char)) : List Char :=
  if cs = [] then q else q ++ ' ' :: List.intercalate [' '] cs

end Chatbot

theorem lastIndexOfAux_lt (c : Char) :
    ∀ (l : List Char) (i : Nat) (acc : Int), acc < (i : Int) →
      lastIndexOfAux c l i acc < (i : Int) + l.length := by
  intro l
  induction l with
  | nil =>
    intro i acc h
    simpa [lastIndexOfAux] using lt_of_lt_of_le h (by simp)
  | cons x xs ih =>
    intro i acc h
    have hstep : (if x = c then (i : Int) else acc) < ((i + 1 : Nat) : Int) := by
      split <;> push_cast <;> omega
    have := ih (i + 1) (if x = c then (i : Int) else acc) hstep
    simp only [lastIndexOfAux, List.length_cons]
    push_cast at this ⊢
    omega

theorem jsLastIndexOf_lt (l : List Char) (c : Char) :
    jsLastIndexOf l c < (l.length : Int) := by
  have := lastIndexOfAux_lt c l 0 (-1) (by norm_num)
  simpa [jsLastIndexOf] using this

/-- The truncator can overshoot its budget by at most one token: the
appended three-character ellipsis marker costs at most one extra token. -/
theorem estimateTokens_truncateToTokens_le (t : List Char) (b : Nat) :
    estimateTokens (truncateToTokens t b) ≤ b + 1 := by
  simp only [truncateToTokens]
  split
  · rename_i hfit
    simp only [estimateTokens]
    omega
  · rename_i hbig
    have hp := jsLastIndexOf_lt (t.take (4 * b)) '.'
    have he := jsLastIndexOf_lt (t.take (4 * b)) '!'
    have hq := jsLastIndexOf_lt (t.take (4 * b)) '?'
    have hs := jsLastIndexOf_lt (t.take (4 * b)) ' '
    have hlen : (t.take (4 * b)).length = min (4 * b) t.length := List.length_take ..
    rw [hlen] at hp he hq hs
    split
    · rename_i hsent
      have hmax : max (max (jsLastIndexOf (t.take (4 * b)) '.')
          (jsLastIndexOf (t.take (4 * b)) '!')) (jsLastIndexOf (t.take (4 * b)) '?')
          < ((min (4 * b) t.length : Nat) : Int) :=
        max_lt (max_lt hp he) hq
      simp only [estimateTokens, List.length_take]
      omega
    · split
      · rename_i hspace
        simp only [estimateTokens, List.length_append, List.length_take, ellipsisMarker,
          List.length_cons, List.length_nil]
        omega
      · simp only [estimateTokens, List.length_append, List.length_take, ellipsisMarker,
          List.length_cons, List.length_nil]
        omega

theorem int_fdiv_natCast_twenty (m : Nat) :
    Int.fdiv (m : Int) 20 = ((m / 20 : Nat) : Int) := by
  cases m with
  | zero => rfl
  | succ k => rfl

/-- Budget invariant of the chunk-selection loop: starting from
`used ≤ safe`, the estimated tokens of the selected contents plus `used`
never exceed `safe + 1` (the one extra token coming from the possible
ellipsis overshoot of the final truncated chunk). -/
theorem selectLoop_sum_le (safe : Int) :
    ∀ (ms : List RetrievalMatch) (used : Int), 0 ≤ used → used ≤ safe →
      used + (((selectLoop safe ms used).map
        (fun m => estimateTokens m.content)).sum : Int) ≤ safe + 1 := by
  intro ms
  induction ms with
  | nil =>
    intro used h0 h1
    simp only [selectLoop, List.map_nil, List.sum_nil]
    omega
  | cons m rest ih =>
    intro used h0 h1
    simp only [selectLoop]
    split
    · rename_i hfit
      have hrec := ih (used + estimateTokens m.content) (by omega) (by omega)
      simp only [List.map_cons, List.sum_cons]
      push_cast at hrec ⊢
      omega
    · split
      · rename_i hnofit hmin
        simp only [List.map_cons, List.sum_cons, List.map_nil, List.sum_nil]
        have ht := estimateTokens_truncateToTokens_le m.content (safe - used).toNat
        push_cast
        omega
      · simp only [List.map_nil, List.sum_nil]
        omega

namespace Chatbot

theorem collectLoop_eq (l : List ChatTurn) :
    ∀ acc, collectLoop l acc =
      ((l.filter keepsTurn).map ChatTurn.content).reverse ++ acc := by
  induction l with
  | nil => intro acc; simp [collectLoop]
  | cons msg rest ih =>
    intro acc
    have hacc : (if msg.role = Role.user ∧ msg.content.length < 500 then
        msg.content ::
          (if msg.role = Role.assistant ∧ msg.content.length < 1000 then
            msg.content :: acc
          else acc)
      else
        (if msg.role = Role.assistant ∧ msg.content.length < 1000 then
          msg.content :: acc
        else acc)) =
        if keepsTurn msg then msg.content :: acc else acc := by
      cases hrole : msg.role with
      | user =>
        by_cases hl : msg.content.length < 500 <;> simp [keepsTurn, hrole, hl]
      | assistant =>
        by_cases hl : msg.content.length < 1000 <;> simp [keepsTurn, hrole, hl]
    simp only [collectLoop, hacc]
    rw [ih]
    by_cases hk : keepsTurn msg
    · simp [hk, List.filter_cons, List.append_assoc]
    · simp [hk, List.filter_cons]

theorem collectLoop_reverse_eq (h : List ChatTurn) :
    collectLoop h.reverse [] = (h.filter keepsTurn).map ChatTurn.content := by
  rw [collectLoop_eq]
  rw [List.filter_reverse, List.map_reverse]
  simp

end Chatbot

namespace Chatbot

theorem updateCandidate_url (c : SourceCandidate) (m : RetrievalMatch) :
    (updateCandidate c m).url = c.url := by
  simp only [updateCandidate]
  split <;> rfl

theorem insertSortedCand_perm (a : SourceCandidate) (l : List SourceCandidate) :
    List.Perm (insertSortedCand a l) (a :: l) := by
  induction l with
  | nil => exact List.Perm.refl _
  | cons b rest ih =>
    simp only [insertSortedCand]
    split
    · exact List.Perm.refl _
    · exact List.Perm.trans (List.Perm.cons b ih) (List.Perm.swap a b rest)

theorem sortCandidates_perm (l : List SourceCandidate) :
    List.Perm (sortCandidates l) l := by
  induction l with
  | nil => exact List.Perm.refl _
  | cons a rest ih =>
    exact List.Perm.trans (insertSortedCand_perm a (sortCandidates rest))
      (List.Perm.cons a ih)

theorem mem_map_url_insert (m : RetrievalMatch) :
    ∀ (acc : List SourceCandidate) (u : List Char),
      u ∈ (insertIntoSourceMap acc m).map SourceCandidate.url →
      u ∈ acc.map SourceCandidate.url ∨ u = m.source_url := by
  intro acc
  induction acc with
  | nil =>
    intro u hu
    simp [insertIntoSourceMap, freshCandidate] at hu
    right
    exact hu
  | cons c cs ih =>
    intro u hu
    simp only [insertIntoSourceMap] at hu
    by_cases hc : c.url = m.source_url
    · rw [if_pos hc] at hu
      simp only [List.map_cons, List.mem_cons, updateCandidate_url] at hu
      rcases hu with h | h
      · left; simp only [List.map_cons, List.mem_cons]; exact Or.inl h
      · left; simp only [List.map_cons, List.mem_cons]; exact Or.inr h
    · rw [if_neg hc] at hu
      simp only [List.map_cons, List.mem_cons] at hu
      rcases hu with h | h
      · left; simp only [List.map_cons, List.mem_cons]; exact Or.inl h
      · rcases ih u h with h2 | h2
        · left; simp only [List.map_cons, List.mem_cons]; exact Or.inr h2
        · right; exact h2

theorem url_mem_insert (m : RetrievalMatch) :
    ∀ (acc : List SourceCandidate) (u : List Char),
      u ∈ acc.map SourceCandidate.url →
      u ∈ (insertIntoSourceMap acc m).map SourceCandidate.url := by
  intro acc
  induction acc with
  | nil => intro u hu; simp at hu
  | cons c cs ih =>
    intro u hu
    simp only [List.map_cons, List.mem_cons] at hu
    simp only [insertIntoSourceMap]
    by_cases hc : c.url = m.source_url
    · rw [if_pos hc]
      simp only [List.map_cons, List.mem_cons, updateCandidate_url]
      exact hu
    · rw [if_neg hc]
      simp only [List.map_cons, List.mem_cons]
      rcases hu with h | h
      · left; exact h
      · right; exact ih u h

theorem source_url_mem_insert (m : RetrievalMatch) :
    ∀ (acc : List SourceCandidate),
      m.source_url ∈ (insertIntoSourceMap acc m).map SourceCandidate.url := by
  intro acc
  induction acc with
  | nil => simp [insertIntoSourceMap, freshCandidate]
  | cons c cs ih =>
    simp only [insertIntoSourceMap]
    by_cases hc : c.url = m.source_url
    · rw [if_pos hc]
      simp [updateCandidate_url, hc]
    · rw [if_neg hc]
      simp only [List.map_cons, List.mem_cons]
      right
      exact ih

theorem mem_insert_url_ne (m : RetrievalMatch) (hm : m.source_url ≠ []) :
    ∀ (acc : List SourceCandidate), (∀ c ∈ acc, c.url ≠ []) →
      ∀ c ∈ insertIntoSourceMap acc m, c.url ≠ [] := by
  intro acc
  induction acc with
  | nil =>
    intro _ c hc
    simp only [insertIntoSourceMap, List.mem_singleton] at hc
    rw [hc]
    exact hm
  | cons c0 cs ih =>
    intro hacc c hc
    simp only [insertIntoSourceMap] at hc
    by_cases h0 : c0.url = m.source_url
    · rw [if_pos h0] at hc
      rcases List.mem_cons.mp hc with rfl | h
      · rw [updateCandidate_url]
        exact hacc c0 (List.mem_cons_self _ _)
      · exact hacc c (List.mem_cons_of_mem _ h)
    · rw [if_neg h0] at hc
      rcases List.mem_cons.mp hc with rfl | h
      · exact hacc c (List.mem_cons_self _ _)
      · exact ih (fun x hx => hacc x (List.mem_cons_of_mem _ hx)) c h

theorem url_mem_buildFold (ms : List RetrievalMatch) :
    ∀ (acc : List SourceCandidate) (u : List Char),
      u ∈ acc.map SourceCandidate.url →
      u ∈ (ms.foldl (fun acc m =>
          if m.source_url = [] then acc else insertIntoSourceMap acc m) acc).map
        SourceCandidate.url := by
  induction ms with
  | nil => intro acc u hu; simpa using hu
  | cons m0 rest ih =>
    intro acc u hu
    simp only [List.foldl_cons]
    apply ih
    by_cases h0 : m0.source_url = []
    · rw [if_pos h0]; exact hu
    · rw [if_neg h0]; exact url_mem_insert m0 acc u hu

theorem match_url_mem_buildFold (ms : List RetrievalMatch) :
    ∀ (acc : List SourceCandidate) (m : RetrievalMatch), m ∈ ms → m.source_url ≠ [] →
      m.source_url ∈ (ms.foldl (fun acc m =>
          if m.source_url = [] then acc else insertIntoSourceMap acc m) acc).map
        SourceCandidate.url := by
  induction ms with
  | nil => intro acc m hm; cases hm
  | cons m0 rest ih =>
    intro acc m hm hne
    simp only [List.foldl_cons]
    rcases List.mem_cons.mp hm with rfl | hm2
    · apply url_mem_buildFold
      rw [if_neg hne]
      exact source_url_mem_insert m acc
    · exact ih _ m hm2 hne

theorem url_ne_buildFold (ms : List RetrievalMatch) :
    ∀ (acc : List SourceCandidate), (∀ c ∈ acc, c.url ≠ []) →
      ∀ c ∈ ms.foldl (fun acc m =>
          if m.source_url = [] then acc else insertIntoSourceMap acc m) acc,
        c.url ≠ [] := by
  induction ms with
  | nil => intro acc hacc c hc; exact hacc c hc
  | cons m0 rest ih =>
    intro acc hacc c hc
    simp only [List.foldl_cons] at hc
    apply ih _ _ c hc
    intro x hx
    by_cases h0 : m0.source_url = []
    · rw [if_pos h0] at hx; exact hacc x hx
    · rw [if_neg h0] at hx; exact mem_insert_url_ne m0 h0 acc hacc x hx

theorem url_from_buildFold (ms : List RetrievalMatch) :
    ∀ (acc : List SourceCandidate) (c : SourceCandidate),
      c ∈ ms.foldl (fun acc m =>
          if m.source_url = [] then acc else insertIntoSourceMap acc m) acc →
      c.url ∈ acc.map SourceCandidate.url ∨ ∃ m ∈ ms, m.source_url = c.url := by
  induction ms with
  | nil => intro acc c hc; left; exact List.mem_map_of_mem _ hc
  | cons m0 rest ih =>
    intro acc c hc
    simp only [List.foldl_cons] at hc
    rcases ih _ c hc with h | h
    · by_cases h0 : m0.source_url = []
      · rw [if_pos h0] at h
        left
        exact h
      · rw [if_neg h0] at h
        rcases mem_map_url_insert m0 acc c.url h with h2 | h2
        · left; exact h2
        · right
          exact ⟨m0, List.mem_cons_self _ _, h2.symm⟩
    · right
      rcases h with ⟨m, hm, he⟩
      exact ⟨m, List.mem_cons_of_mem _ hm, he⟩

theorem buildSourceMap_url_ne (ms : List RetrievalMatch) :
    ∀ c ∈ buildSourceMap ms, c.url ≠ [] := by
  intro c hc
  exact url_ne_buildFold ms [] (by intro x hx; cases hx) c hc

theorem buildSourceMap_mem_url (ms : List RetrievalMatch) (m : RetrievalMatch)
    (hm : m ∈ ms) (hne : m.source_url ≠ []) :
    m.source_url ∈ (buildSourceMap ms).map SourceCandidate.url :=
  match_url_mem_buildFold ms [] m hm hne

theorem buildSourceMap_url_from (ms : List RetrievalMatch) (c : SourceCandidate)
    (hc : c ∈ buildSourceMap ms) : ∃ m ∈ ms, m.source_url = c.url := by
  rcases url_from_buildFold ms [] c hc with h | h
  · simp at h
  · exact h

theorem buildSourceMap_nil_of_all_empty (ms : List RetrievalMatch)
    (h : ∀ m ∈ ms, m.source_url = []) : buildSourceMap ms = [] := by
  have key : ∀ (l : List RetrievalMatch), (∀ m ∈ l, m.source_url = []) →
      ∀ (acc : List SourceCandidate),
        l.foldl (fun acc m =>
          if m.source_url = [] then acc else insertIntoSourceMap acc m) acc = acc := by
    intro l
    induction l with
    | nil => intro _ acc; rfl
    | cons m0 rest ih =>
      intro hl acc
      simp only [List.foldl_cons]
      rw [if_pos (hl m0 (List.mem_cons_self _ _))]
      exact ih (fun x hx => hl x (List.mem_cons_of_mem _ hx)) acc
  exact key ms h []

end Chatbot

/-- Claim C1 fails as stated: with system prompt and user query empty and a
history reservation of 2993 tokens, the reserved tokens (2999) stay below
the ceiling `MAX_CONTEXT_TOKENS = 3000`, yet three empty-content matches are
all selected (each costs 0 estimated tokens against the budget) and their
ordinal markers and blank-line separators alone push `totalTokens` to
3003 > 3000. -/
theorem c1_counterexample :
    estimateTokens ([] : List Char) + estimateTokens ([] : List Char) +
      estimateTokens contextWrapperText + 2993 < MAX_CONTEXT_TOKENS ∧
    MAX_CONTEXT_TOKENS <
      (buildContextWithTokenManagement
        [⟨[], [], none, 0⟩, ⟨[], [], none, 0⟩, ⟨[], [], none, 0⟩]
        [] [] 2993).totalTokens := by
  constructor
  · decide
  · decide

/-- Claim C1 (amended): whenever the combined reserved tokens (system
prompt + user query + context-wrapper text + history) stay below the
ceiling `MAX_CONTEXT_TOKENS = 3000`, the reserved tokens plus the sum of
the estimated tokens of the selected matches' contents are at most the
ceiling.  The `totalTokens` field itself also counts the per-chunk ordinal
markers and blank-line separators, which are not charged against the
budget, so it can exceed the ceiling (see the counterexample). -/
theorem c1_reserved_plus_selected_within_ceiling
    (matchList : List RetrievalMatch) (systemPrompt userQuery : List Char)
    (historyTokens : Nat)
    (hres : estimateTokens systemPrompt + estimateTokens userQuery +
      estimateTokens contextWrapperText + historyTokens < MAX_CONTEXT_TOKENS) :
    estimateTokens systemPrompt + estimateTokens userQuery +
      estimateTokens contextWrapperText + historyTokens +
      (((buildContextWithTokenManagement matchList systemPrompt userQuery
          historyTokens).selectedMatches).map
        (fun m => estimateTokens m.content)).sum ≤ MAX_CONTEXT_TOKENS := by
  set R : Nat := estimateTokens systemPrompt + estimateTokens userQuery +
    estimateTokens contextWrapperText + historyTokens with hRdef
  have hM : (MAX_CONTEXT_TOKENS : Int) = 3000 := rfl
  have h19 : 19 * ((MAX_CONTEXT_TOKENS : Int) - (R : Int)) =
      ((19 * (3000 - R) : Nat) : Int) := by
    rw [hM]
    omega
  have hsel : (buildContextWithTokenManagement matchList systemPrompt userQuery
      historyTokens).selectedMatches =
      selectLoop (((19 * (3000 - R) / 20 : Nat) : Int)) matchList 0 := by
    calc (buildContextWithTokenManagement matchList systemPrompt userQuery
          historyTokens).selectedMatches
        = selectLoop (Int.fdiv (19 * ((MAX_CONTEXT_TOKENS : Int) - (R : Int))) 20)
            matchList 0 := rfl
      _ = selectLoop (((19 * (3000 - R) / 20 : Nat) : Int)) matchList 0 := by
          rw [h19, int_fdiv_natCast_twenty]
  rw [hsel]
  have hloop := selectLoop_sum_le (((19 * (3000 - R) / 20 : Nat) : Int)) matchList 0
    (le_refl 0) (by positivity)
  have hM2 : MAX_CONTEXT_TOKENS = 3000 := rfl
  rw [hM2] at hres ⊢
  omega

/-- Witness for C1 (amended): at one concrete input the hypothesis holds and
the theorem applies. -/
theorem c1_witness :
    estimateTokens ([] : List Char) + estimateTokens ([] : List Char) +
      estimateTokens contextWrapperText + 0 < MAX_CONTEXT_TOKENS ∧
    estimateTokens ([] : List Char) + estimateTokens ([] : List Char) +
      estimateTokens contextWrapperText + 0 +
      (((buildContextWithTokenManagement [⟨"hello world".data, [], none, 0⟩]
          [] [] 0).selectedMatches).map
        (fun m => estimateTokens m.content)).sum ≤ MAX_CONTEXT_TOKENS :=
  ⟨by decide,
    c1_reserved_plus_selected_within_ceiling [⟨"hello world".data, [], none, 0⟩]
      [] [] 0 (by decide)⟩

/-- Claim C2 (code bug): the `Chatbot.tsx` `trimHistory` swaps the two turns
of every user/assistant pair it keeps.  On the history
`[user "hei", assistant "hallo"]` (both turns far within every budget) the
pair branch executes `trimmed.unshift(history[i-1]); trimmed.unshift(msg)`,
which puts the assistant turn first, so the output is
`[assistant "hallo", user "hei"]` — not a suffix of the input in original
order, although the inline comments ("User message first", "Then assistant
message") and the order-preserving `route.ts` variant show the intent. -/
theorem c2_pair_reordering_bug :
    Chatbot.trimHistory [⟨Role.user, "hei".data⟩, ⟨Role.assistant, "hallo".data⟩] =
      [⟨Role.assistant, "hallo".data⟩, ⟨Role.user, "hei".data⟩] ∧
    Chatbot.trimHistory [⟨Role.user, "hei".data⟩, ⟨Role.assistant, "hallo".data⟩] ≠
      [⟨Role.user, "hei".data⟩, ⟨Role.assistant, "hallo".data⟩] := by
  constructor
  · decide
  · decide

/-- Claim C3 fails as stated: for `t = "aaaaa"` and `b = 1` the hard-cut
branch appends the ellipsis marker, producing `"aaaa..."` (7 characters,
2 estimated tokens), which exceeds the budget of 1 token. -/
theorem c3_counterexample :
    ¬ estimateTokens (truncateToTokens "aaaaa".data 1) ≤ 1 := by
  decide

/-- Claim C3 (amended): for every text and every budget,
`estimateTokens (truncateToTokens t b) ≤ b + 1` — the truncator can exceed
its budget, but only by the single token introduced by the appended
three-character ellipsis marker in the word-boundary and hard-cut
branches. -/
theorem c3_estimate_truncate_le_budget_succ (t : List Char) (b : Nat) :
    estimateTokens (truncateToTokens t b) ≤ b + 1 :=
  estimateTokens_truncateToTokens_le t b

/-- Claim C4 fails as stated: truncation is not idempotent.  For the
21-character text `"aaaaaaaaaaaaaaaaaa bb"` and budget 5 (20 characters),
the first truncation cuts at the word boundary and appends the ellipsis,
yielding the 21-character `"aaaaaaaaaaaaaaaaaa..."`; re-truncating that at
budget 5 now finds a sentence-ending period inside the 20-character window
and returns `"aaaaaaaaaaaaaaaaaa.."`, a different string. -/
theorem c4_counterexample :
    truncateToTokens (truncateToTokens "aaaaaaaaaaaaaaaaaa bb".data 5) 5 ≠
      truncateToTokens "aaaaaaaaaaaaaaaaaa bb".data 5 := by
  decide

/-- Claim C4 (amended): truncation is idempotent whenever the first result
actually fits the budget it was given (equivalently, whenever the appended
ellipsis marker did not push the result past `4 * b` characters); when the
result overshoots, re-truncation can shorten it further. -/
theorem c4_truncate_idempotent_of_fits (t : List Char) (b : Nat)
    (h : estimateTokens (truncateToTokens t b) ≤ b) :
    truncateToTokens (truncateToTokens t b) b = truncateToTokens t b := by
  have hlen : (truncateToTokens t b).length ≤ 4 * b := by
    simp only [estimateTokens] at h
    omega
  rw [truncateToTokens]
  simp only [hlen, if_true, if_pos]

/-- Witness for C4 (amended): `"abc"` already fits budget 1, so truncation
leaves it unchanged and re-truncation is a no-op. -/
theorem c4_witness :
    estimateTokens (truncateToTokens "abc".data 1) ≤ 1 ∧
    truncateToTokens (truncateToTokens "abc".data 1) 1 =
      truncateToTokens "abc".data 1 :=
  ⟨by decide, c4_truncate_idempotent_of_fits "abc".data 1 (by decide)⟩

/-- Claim C5 fails as stated: for the non-empty text `"a"` and budget 0,
`maxChars = 0`, the sentence and word branches find nothing (`lastIndexOf`
returns `-1`), and the hard-cut branch returns the bare ellipsis marker
`"..."` — not the empty string. -/
theorem c5_counterexample :
    truncateToTokens "a".data 0 ≠ [] := by
  decide

/-- Claim C5 (amended): `truncateToTokens text 0` returns the empty string
exactly when `text` is empty; for every non-empty text it returns the
three-character ellipsis marker `"..."`. -/
theorem c5_truncate_at_zero (t : List Char) :
    truncateToTokens t 0 = if t = [] then [] else ellipsisMarker := by
  cases t with
  | nil => decide
  | cons c rest =>
    simp only [truncateToTokens, List.take_zero, Nat.mul_zero, List.length_cons]
    have hne : ¬ (rest.length + 1 ≤ 0) := by omega
    rw [if_neg hne]
    have hp : jsLastIndexOf [] '.' = -1 := rfl
    have he : jsLastIndexOf [] '!' = -1 := rfl
    have hq : jsLastIndexOf [] '?' = -1 := rfl
    have hs : jsLastIndexOf [] ' ' = -1 := rfl
    rw [hp, he, hq, hs]
    norm_num
    rfl

/-- Claim C6 (confirmed): `buildContextualQuery` returns the query unchanged
when the word count exceeds 3 or the history is empty; otherwise it returns
the original query first, followed (space-separated) by the contents of the
history turns below the per-turn ceilings (assistant < 1000 characters,
user < 500 characters) in chronological order; and on the concrete
follow-up scenario it returns `"today today or the weekend?"`. -/
theorem c6_contextual_query_shape :
    (∀ (q : List Char) (h : List ChatTurn),
      Chatbot.buildContextualQuery q h =
        if 3 < Chatbot.countWords q ∨ h = [] then q
        else Chatbot.joinQuerySp q
          ((h.filter Chatbot.keepsTurn).map ChatTurn.content)) ∧
    Chatbot.buildContextualQuery "today".data
      [⟨Role.assistant, "today or the weekend?".data⟩] =
      "today today or the weekend?".data := by
  constructor
  · intro q h
    simp only [Chatbot.buildContextualQuery, Chatbot.collectLoop_reverse_eq]
    by_cases hshort : Chatbot.countWords q ≤ 3 ∧ 0 < h.length
    · rw [if_pos hshort]
      have hcond : ¬ (3 < Chatbot.countWords q ∨ h = []) := by
        rcases hshort with ⟨h1, h2⟩
        push_neg
        constructor
        · omega
        · intro he
          rw [he] at h2
          simp at h2
      rw [if_neg hcond]
      by_cases hcs : (h.filter Chatbot.keepsTurn).map ChatTurn.content = []
      · rw [Chatbot.joinQuerySp, if_pos hcs]
        rw [hcs]
        simp
      · rw [Chatbot.joinQuerySp, if_neg hcs]
        have : 0 < ((h.filter Chatbot.keepsTurn).map ChatTurn.content).length := by
          cases hl : (h.filter Chatbot.keepsTurn).map ChatTurn.content with
          | nil => exact absurd hl hcs
          | cons a as => simp
        rw [if_pos this]
    · rw [if_neg hshort]
      have hcond : 3 < Chatbot.countWords q ∨ h = [] := by
        rw [Classical.not_and_iff_or_not_not] at hshort
        rcases hshort with h1 | h2
        · left; omega
        · right
          cases h with
          | nil => rfl
          | cons a as => simp at h2
      rw [if_pos hcond]
  · decide

/-- Claim C7 (confirmed): whenever some used match carries a non-empty
`source_url` outside the homepage list, `findMostRelevantSource` returns a
source whose URL is a non-empty, non-homepage `source_url` of some match —
regardless of the similarity scores of homepage matches, because the
specific partition is consulted first. -/
theorem c7_specific_beats_homepage (ms : List RetrievalMatch)
    (homepageUrls : List (List Char)) (m : RetrievalMatch) (hm : m ∈ ms)
    (hne : m.source_url ≠ []) (hsp : m.source_url ∉ homepageUrls) :
    ∃ s : Source, Chatbot.findMostRelevantSource ms homepageUrls = some s ∧
      s.url ≠ [] ∧ s.url ∉ homepageUrls ∧ ∃ m2 ∈ ms, m2.source_url = s.url := by
  have hlen : ¬ (ms.length = 0) := by
    cases ms with
    | nil => cases hm
    | cons a as => simp
  have hurl : m.source_url ∈ (Chatbot.buildSourceMap ms).map
      Chatbot.SourceCandidate.url :=
    Chatbot.buildSourceMap_mem_url ms m hm hne
  rcases List.mem_map.mp hurl with ⟨c, hc, hcu⟩
  have hcf : c ∈ (Chatbot.buildSourceMap ms).filter
      (fun c => decide (c.url ∉ homepageUrls)) := by
    apply List.mem_filter.mpr
    refine ⟨hc, ?_⟩
    rw [hcu]
    exact decide_eq_true hsp
  simp only [Chatbot.findMostRelevantSource]
  rw [if_neg hlen]
  split
  · rename_i best rest2 heq
    refine ⟨⟨best.url, best.title, best.content⟩, rfl, ?_, ?_, ?_⟩
    · have hmem : best ∈ (Chatbot.buildSourceMap ms).filter
          (fun c => decide (c.url ∉ homepageUrls)) := by
        have h1 : best ∈ Chatbot.sortCandidates
            ((Chatbot.buildSourceMap ms).filter
              (fun c => decide (c.url ∉ homepageUrls))) := by
          rw [heq]
          exact List.mem_cons_self _ _
        exact (Chatbot.sortCandidates_perm _).mem_iff.mp h1
      exact Chatbot.buildSourceMap_url_ne ms best (List.mem_filter.mp hmem).1
    · have hmem : best ∈ (Chatbot.buildSourceMap ms).filter
          (fun c => decide (c.url ∉ homepageUrls)) := by
        have h1 : best ∈ Chatbot.sortCandidates
            ((Chatbot.buildSourceMap ms).filter
              (fun c => decide (c.url ∉ homepageUrls))) := by
          rw [heq]
          exact List.mem_cons_self _ _
        exact (Chatbot.sortCandidates_perm _).mem_iff.mp h1
      exact of_decide_eq_true (List.mem_filter.mp hmem).2
    · have hmem : best ∈ (Chatbot.buildSourceMap ms).filter
          (fun c => decide (c.url ∉ homepageUrls)) := by
        have h1 : best ∈ Chatbot.sortCandidates
            ((Chatbot.buildSourceMap ms).filter
              (fun c => decide (c.url ∉ homepageUrls))) := by
          rw [heq]
          exact List.mem_cons_self _ _
        exact (Chatbot.sortCandidates_perm _).mem_iff.mp h1
      exact Chatbot.buildSourceMap_url_from ms best (List.mem_filter.mp hmem).1
  · rename_i heq
    exfalso
    have h1 : c ∈ Chatbot.sortCandidates
        ((Chatbot.buildSourceMap ms).filter
          (fun c => decide (c.url ∉ homepageUrls))) :=
      (Chatbot.sortCandidates_perm _).mem_iff.mpr hcf
    rw [heq] at h1
    cases h1

/-- Witness for C7: a specific-page match with similarity 0.4 beats a
homepage match with similarity 0.9 — the returned source URL is non-empty
and not a homepage URL. -/
theorem c7_witness :
    ∃ s : Source,
      Chatbot.findMostRelevantSource
        [⟨"homepage text".data, "https://vollenopplevelser.no".data, none, 9/10⟩,
         ⟨"page text".data, "https://vollenopplevelser.no/badeplasser".data, none, 2/5⟩]
        Chatbot.HOMEPAGE_URLS = some s ∧
      s.url ≠ [] ∧ s.url ∉ Chatbot.HOMEPAGE_URLS ∧
      ∃ m2 ∈ [(⟨"homepage text".data, "https://vollenopplevelser.no".data, none,
          9/10⟩ : RetrievalMatch),
        ⟨"page text".data, "https://vollenopplevelser.no/badeplasser".data, none, 2/5⟩],
        m2.source_url = s.url :=
  c7_specific_beats_homepage
    [⟨"homepage text".data, "https://vollenopplevelser.no".data, none, 9/10⟩,
     ⟨"page text".data, "https://vollenopplevelser.no/badeplasser".data, none, 2/5⟩]
    Chatbot.HOMEPAGE_URLS
    ⟨"page text".data, "https://vollenopplevelser.no/badeplasser".data, none, 2/5⟩
    (List.mem_cons_of_mem _ (List.mem_cons_self _ _))
    (by decide) (by decide)

/-- Claim C9 (confirmed): for a non-empty list of used matches
`findMostRelevantSource` never returns `null`; and when no match carries a
non-empty `source_url` (so grouping yields no candidate in either
partition) it falls back to the first match, returning a source whose `url`
is the empty string. -/
theorem c9_nonempty_never_null (homepageUrls : List (List Char))
    (first : RetrievalMatch) (rest : List RetrievalMatch) :
    (Chatbot.findMostRelevantSource (first :: rest) homepageUrls).isSome = true ∧
    ((∀ m ∈ first :: rest, m.source_url = []) →
      Chatbot.findMostRelevantSource (first :: rest) homepageUrls =
        some ⟨[], Chatbot.jsTitleOrNull first.title, first.content⟩) := by
  constructor
  · simp only [Chatbot.findMostRelevantSource]
    rw [if_neg (by simp)]
    split
    · rfl
    · split
      · rfl
      · rfl
  · intro hall
    have hmap : Chatbot.buildSourceMap (first :: rest) = [] :=
      Chatbot.buildSourceMap_nil_of_all_empty _ hall
    have hfirst : first.source_url = [] := hall first (List.mem_cons_self _ _)
    simp only [Chatbot.findMostRelevantSource, hmap, List.filter_nil]
    rw [if_neg (by simp)]
    simp only [Chatbot.sortCandidates]
    rw [hfirst]

/-- Witness for C9: a single match with empty `source_url` yields the
fallback source with empty URL. -/
theorem c9_witness :
    (Chatbot.findMostRelevantSource [⟨"abc".data, [], none, 0⟩]
      Chatbot.HOMEPAGE_URLS).isSome = true ∧
    Chatbot.findMostRelevantSource [⟨"abc".data, [], none, 0⟩]
      Chatbot.HOMEPAGE_URLS = some ⟨[], none, "abc".data⟩ :=
  ⟨(c9_nonempty_never_null Chatbot.HOMEPAGE_URLS ⟨"abc".data, [], none, 0⟩ []).1,
    (c9_nonempty_never_null Chatbot.HOMEPAGE_URLS ⟨"abc".data, [], none, 0⟩ []).2
      (by decide)⟩

/-- Claim C8 (confirmed): when retrieval yields no matches (`null` or an
empty list), the orchestrator's post-retrieval branch returns the fixed
"no relevant information found" fallback JSON with an empty source list —
a `jsonFallback` outcome, never a `streamGeneration` one, so no
chat-generation call is made for that request. -/
theorem c8_empty_retrieval_fallback (message : List Char)
    (history : List ChatTurn) (systemPrompt : List Char) :
    postAfterRetrieval message history systemPrompt none =
      PostOutcome.jsonFallback fallbackAnswer [] ∧
    postAfterRetrieval message history systemPrompt (some []) =
      PostOutcome.jsonFallback fallbackAnswer [] :=
  ⟨rfl, rfl⟩

/-- Claim C10 fails as stated: on the two-turn history
`[user "hei", assistant "hallo"]` the `route.ts` trimmer returns the turns
in original order while the `Chatbot.tsx` trimmer returns the pair
swapped, so the two implementations are not extensionally equal (they also
use different history budgets, 1000 versus 50000 tokens). -/
theorem c10_counterexample :
    Route.trimHistory [⟨Role.user, "hei".data⟩, ⟨Role.assistant, "hallo".data⟩] ≠
      Chatbot.trimHistory [⟨Role.user, "hei".data⟩, ⟨Role.assistant, "hallo".data⟩] := by
  decide

/-- Claim C10 (amended): the two `trimHistory` implementations agree on
every history of at most one turn whose content estimates to at most 1000
tokens (the `route.ts` budget); on longer or larger histories they diverge
(different budgets, and the component version swaps kept pairs). -/
theorem c10_trimmers_agree_on_small_singletons (h : List ChatTurn)
    (hlen : h.length ≤ 1)
    (htok : ∀ m ∈ h, estimateTokens m.content ≤ 1000) :
    Route.trimHistory h = Chatbot.trimHistory h := by
  cases h with
  | nil => rfl
  | cons m rest =>
    cases rest with
    | nil =>
      have hm := htok m (List.mem_cons_self _ _)
      simp only [Route.trimHistory, Chatbot.trimHistory, List.reverse_cons,
        List.reverse_nil, List.nil_append]
      rw [if_neg (by simp)]
      simp only [Route.trimLoop, Chatbot.trimLoop]
      have h1 : 0 + estimateTokens m.content ≤ Route.MAX_HISTORY_TOKENS := by
        simp only [Route.MAX_HISTORY_TOKENS]
        omega
      have h2 : 0 + estimateTokens m.content ≤ Chatbot.MAX_HISTORY_TOKENS := by
        simp only [Chatbot.MAX_HISTORY_TOKENS]
        omega
      rw [if_pos h1, if_pos h2]
    | cons m2 rest2 =>
      exfalso
      simp at hlen

/-- Witness for C10 (amended): both trimmers keep the single small turn
`user "hei"` unchanged. -/
theorem c10_witness :
    ([⟨Role.user, "hei".data⟩] : List ChatTurn).length ≤ 1 ∧
    (∀ m ∈ ([⟨Role.user, "hei".data⟩] : List ChatTurn),
      estimateTokens m.content ≤ 1000) ∧
    Route.trimHistory [⟨Role.user, "hei".data⟩] =
      Chatbot.trimHistory [⟨Role.user, "hei".data⟩] :=
  ⟨by decide, by decide,
    c10_trimmers_agree_on_small_singletons [⟨Role.user, "hei".data⟩]
      (by decide) (by decide)⟩
